import Mathlib

/-!
Shallow embedding of the media-service upload/key/URL pipeline
(`src/media-service/src/routes/media.ts`, `services/database.ts`,
`services/rateLimiter.ts`, `services/publisher.ts`,
`src/unnamed/part_003` = `middleware/rateLimit.ts`).

Pure functions of the source become Lean functions over `String` /
`List Char`; the relational store becomes explicit state passing over a
`List MediaObject`; the Redis rate-limit key becomes an explicit
`Option (Nat × Option Nat)` (count, expiry) with a `Nat` clock; external
effects (object store, pub/sub) become events in explicit traces, with
their success/failure supplied as `Bool`/`Except` parameters.
-/

namespace MediaService

/-- Media object status, from `services/database.ts` (`MediaStatus`). -/
inductive MediaStatus where
  | ACTIVE
  | DELETED
deriving DecidableEq, BEq, Repr

/-- A metadata row, from `services/database.ts` (`MediaObject`).
Timestamps are modelled as `Nat`. -/
structure MediaObject where
  id : String
  ownerId : String
  originalName : String
  storedKey : String
  mimeType : String
  sizeBytes : Nat
  width : Option Nat
  height : Option Nat
  status : MediaStatus
  uploadedAt : Nat
  deletedAt : Option Nat
deriving DecidableEq, Repr

/-! ## Key Builder (`routes/media.ts` lines 125-128) -/

/-- `buildObjectKey(userId, id, extension)` from `routes/media.ts`:
`const suffix = extension ? '.' + extension : ''` (JS: the empty string is
falsy) and the template `uploads/${userId}/${id}${suffix}`. -/
def buildObjectKey (userId id extension : String) : String :=
  let suffix := if extension = "" then "" else "." ++ extension
  "uploads/" ++ userId ++ "/" ++ id ++ suffix

/-! ### Generic first-separator splitting lemma -/

/-- If a character `c` occurs in neither prefix, splitting at the first
occurrence of `c` is unambiguous. -/
theorem splitAtFirst_unique (c : Char) :
    ∀ (a₁ : List Char) {b₁ a₂ b₂ : List Char},
      c ∉ a₁ → c ∉ a₂ → a₁ ++ c :: b₁ = a₂ ++ c :: b₂ → a₁ = a₂ ∧ b₁ = b₂ := by
  intro a₁
  induction a₁ with
  | nil =>
    intro b₁ a₂ b₂ _ h₂ heq
    cases a₂ with
    | nil =>
      simp only [List.nil_append, List.cons.injEq] at heq
      exact ⟨rfl, heq.2⟩
    | cons x xs =>
      simp only [List.nil_append, List.cons_append, List.cons.injEq] at heq
      exact absurd (heq.1 ▸ List.mem_cons_self x xs) (heq.1 ▸ h₂)
  | cons x xs ih =>
    intro b₁ a₂ b₂ h₁ h₂ heq
    cases a₂ with
    | nil =>
      simp only [List.cons_append, List.nil_append, List.cons.injEq] at heq
      exact absurd (heq.1 ▸ List.mem_cons_self x xs) (heq.1 ▸ h₁)
    | cons y ys =>
      simp only [List.cons_append, List.cons.injEq] at heq
      have h₁' : c ∉ xs := fun hm => h₁ (List.mem_cons_of_mem x hm)
      have h₂' : c ∉ ys := fun hm => h₂ (List.mem_cons_of_mem y hm)
      obtain ⟨ha, hb⟩ := ih h₁' h₂' heq.2
      exact ⟨by rw [heq.1, ha], hb⟩

/-- Splitting at the LAST occurrence of `c` is unambiguous when `c` occurs
in neither suffix.  Proved by reversing and using `splitAtFirst_unique`. -/
theorem splitAtLast_unique (c : Char) {a₁ b₁ a₂ b₂ : List Char}
    (h₁ : c ∉ b₁) (h₂ : c ∉ b₂)
    (heq : a₁ ++ c :: b₁ = a₂ ++ c :: b₂) : a₁ = a₂ ∧ b₁ = b₂ := by
  have hrev : b₁.reverse ++ c :: a₁.reverse = b₂.reverse ++ c :: a₂.reverse := by
    have := congrArg List.reverse heq
    simpa [List.reverse_append] using this
  have h₁' : c ∉ b₁.reverse := by simpa using h₁
  have h₂' : c ∉ b₂.reverse := by simpa using h₂
  obtain ⟨hb, ha⟩ := splitAtFirst_unique c b₁.reverse h₁' h₂' hrev
  constructor
  · have := congrArg List.reverse ha
    simpa using this
  · have := congrArg List.reverse hb
    simpa using this

/-- The character data of a built key, split into its syntactic parts. -/
theorem buildObjectKey_data (u i e : String) :
    (buildObjectKey u i e).data =
      "uploads/".data ++ u.data ++ '/' ::
        (i.data ++ (if e = "" then [] else '.' :: e.data)) := by
  by_cases he : e = ""
  · simp [buildObjectKey, he, String.data_append]
  · simp [buildObjectKey, he, String.data_append]

/-- Helper: `'/'` does not occur in `i.data ++ suffix` when it occurs in
neither `i` nor `e`. -/
theorem slash_not_mem_tail {i e : String}
    (hi : '/' ∉ i.data) (he : '/' ∉ e.data) :
    '/' ∉ i.data ++ (if e = "" then [] else '.' :: e.data) := by
  intro hmem
  rcases List.mem_append.mp hmem with h | h
  · exact hi h
  · by_cases hcase : e = ""
    · rw [if_pos hcase] at h
      exact absurd h (List.not_mem_nil _)
    · rw [if_neg hcase] at h
      rcases List.mem_cons.mp h with h | h
      · exact absurd h (by decide)
      · exact he h

/-- Conditional injectivity of the key builder: as long as the id and the
extension contain neither `'/'` nor `'.'` (true of every id the service
generates — UUIDs — and of every inferred extension — sanitized to
`[a-z0-9]`), equal keys force equal components. -/
theorem buildObjectKey_inj_aux {u₁ i₁ e₁ u₂ i₂ e₂ : String}
    (hi₁s : '/' ∉ i₁.data) (hi₁d : '.' ∉ i₁.data)
    (hi₂s : '/' ∉ i₂.data) (hi₂d : '.' ∉ i₂.data)
    (he₁s : '/' ∉ e₁.data) (he₂s : '/' ∉ e₂.data)
    (heq : buildObjectKey u₁ i₁ e₁ = buildObjectKey u₂ i₂ e₂) :
    u₁ = u₂ ∧ i₁ = i₂ ∧ e₁ = e₂ := by
  have hdata := congrArg String.data heq
  rw [buildObjectKey_data, buildObjectKey_data, List.append_assoc, List.append_assoc] at hdata
  have hdata' := List.append_cancel_left hdata
  obtain ⟨hu, htail⟩ :=
    splitAtLast_unique '/' (slash_not_mem_tail hi₁s he₁s) (slash_not_mem_tail hi₂s he₂s) hdata'
  refine ⟨String.ext hu, ?_⟩
  by_cases h₁ : e₁ = "" <;> by_cases h₂ : e₂ = ""
  · rw [if_pos h₁, if_pos h₂, List.append_nil, List.append_nil] at htail
    exact ⟨String.ext htail, h₁.trans h₂.symm⟩
  · exfalso
    rw [if_pos h₁, if_neg h₂, List.append_nil] at htail
    have : '.' ∈ i₁.data := by
      rw [htail]
      exact List.mem_append_right i₂.data (List.mem_cons_self '.' e₂.data)
    exact hi₁d this
  · exfalso
    rw [if_neg h₁, if_pos h₂, List.append_nil] at htail
    have : '.' ∈ i₂.data := by
      rw [← htail]
      exact List.mem_append_right i₁.data (List.mem_cons_self '.' e₁.data)
    exact hi₂d this
  · rw [if_neg h₁, if_neg h₂] at htail
    obtain ⟨hi, he⟩ := splitAtFirst_unique '.' i₁.data hi₁d hi₂d htail
    exact ⟨String.ext hi, String.ext he⟩

/-- C8: the claim as frozen quantifies over arbitrary strings, and there
equal keys do NOT force equal `(owner, id)` pairs: `buildObjectKey "a" "b"
"c"` and `buildObjectKey "a" "b.c" ""` both produce `"uploads/a/b.c"`,
yet `("a", "b") ≠ ("a", "b.c")`. -/
theorem buildObjectKey_not_universally_injective :
    buildObjectKey "a" "b" "c" = buildObjectKey "a" "b.c" "" ∧
      ¬ ((("a" : String), ("b" : String)) = (("a" : String), ("b.c" : String))) := by
  constructor
  · decide
  · decide

/-- C8 (amended): `buildObjectKey(ownerId, id, ext)` returns
`uploads/{ownerId}/{id}` with `.{ext}` appended exactly when `ext` is
non-empty; and whenever the ids and extensions contain neither `'/'` nor
`'.'` (true of all keys the service builds: ids are UUIDs and extensions
are sanitized to `[a-z0-9]`), equal keys force equal `(owner, id)` pairs
(indeed equal `(owner, id, ext)` triples). -/
theorem buildObjectKey_format_and_injective :
    (∀ u i : String, buildObjectKey u i "" = "uploads/" ++ u ++ "/" ++ i) ∧
    (∀ u i e : String, e ≠ "" →
      buildObjectKey u i e = "uploads/" ++ u ++ "/" ++ i ++ "." ++ e) ∧
    (∀ u₁ i₁ e₁ u₂ i₂ e₂ : String,
      ('/' ∉ i₁.data ∧ '.' ∉ i₁.data ∧ '/' ∉ e₁.data) →
      ('/' ∉ i₂.data ∧ '.' ∉ i₂.data ∧ '/' ∉ e₂.data) →
      buildObjectKey u₁ i₁ e₁ = buildObjectKey u₂ i₂ e₂ →
      u₁ = u₂ ∧ i₁ = i₂ ∧ e₁ = e₂) := by
  refine ⟨fun u i => ?_, fun u i e he => ?_, fun u₁ i₁ e₁ u₂ i₂ e₂ h₁ h₂ heq => ?_⟩
  · simp [buildObjectKey]
  · simp [buildObjectKey, he, String.append_assoc]
  · exact buildObjectKey_inj_aux h₁.1 h₁.2.1 h₂.1 h₂.2.1 h₁.2.2 h₂.2.2 heq

/-- Witness for `buildObjectKey_format_and_injective` at concrete inputs. -/
theorem buildObjectKey_format_and_injective_witness :
    buildObjectKey "u" "i" "png" = "uploads/" ++ "u" ++ "/" ++ "i" ++ "." ++ "png" ∧
      (("u" : String) = "u" ∧ ("i" : String) = "i" ∧ ("png" : String) = "png") :=
  ⟨buildObjectKey_format_and_injective.2.1 "u" "i" "png" (by decide),
   buildObjectKey_format_and_injective.2.2 "u" "i" "png" "u" "i" "png"
     (by refine ⟨?_, ?_, ?_⟩ <;> decide) (by refine ⟨?_, ?_, ?_⟩ <;> decide) rfl⟩

/-! ## Filename Normalizer (`routes/media.ts` lines 130-139) -/

/-- The character class `[A-Za-z0-9._-]` kept by the sanitizing replace
`/[^\w.\-]+/g` in `buildAsciiFallbackFilename` (`\w` = `[A-Za-z0-9_]`). -/
def isSafeChar (c : Char) : Bool :=
  ('A' ≤ c && c ≤ 'Z') || ('a' ≤ c && c ≤ 'z') || ('0' ≤ c && c ≤ '9') ||
    c == '.' || c == '_' || c == '-'

/-- The test `/[a-z0-9]/i` applied to decide the `file` fallback. -/
def isAsciiAlnum (c : Char) : Bool :=
  ('A' ≤ c && c ≤ 'Z') || ('a' ≤ c && c ≤ 'z') || ('0' ≤ c && c ≤ '9')

/-- `replace(/[^\w.\-]+/g, '_')`: every maximal run of characters outside
the safe class becomes a single `'_'`.  The `Bool` flag records whether we
are inside such a run (its `'_'` already emitted). -/
def sanitizeAux : Bool → List Char → List Char
  | _, [] => []
  | inBad, c :: rest =>
    if isSafeChar c then c :: sanitizeAux false rest
    else if inBad then sanitizeAux true rest
    else '_' :: sanitizeAux true rest

/-- Entry point of the run-collapsing replace. -/
def sanitizeRuns (l : List Char) : List Char := sanitizeAux false l

/-- `replace(/^_+|_+$/g, '')`: trim leading and trailing underscore runs. -/
def trimUnderscores (l : List Char) : List Char :=
  ((l.dropWhile (· == '_')).reverse.dropWhile (· == '_')).reverse

/-- `buildAsciiFallbackFilename(originalName, extension)` from
`routes/media.ts`.  The two platform stages that are not code of this
repository — `path.basename(name, path.extname(name))` (node:path) and
`.normalize('NFKD')` (ICU) — are taken as parameters `stripExt` and
`nfkd`; everything after them is the source's own logic: sanitize, trim,
`file` fallback when no ASCII alphanumeric remains, re-append the
extension, `slice(0, 180)`. -/
def buildAsciiFallbackFilename (stripExt nfkd : List Char → List Char)
    (originalName extension : List Char) : List Char :=
  let base := stripExt originalName
  let normalizedBase := trimUnderscores (sanitizeRuns (nfkd base))
  let fileBase :=
    if normalizedBase ≠ [] ∧ normalizedBase.any isAsciiAlnum then normalizedBase
    else ['f', 'i', 'l', 'e']
  let safeExt := if extension = [] then [] else '.' :: extension
  (fileBase ++ safeExt).take 180

/-- Every character emitted by the sanitizing replace is in the safe
class (the replacement `'_'` itself is in the class). -/
theorem sanitizeAux_safe :
    ∀ (l : List Char) (b : Bool) (c : Char), c ∈ sanitizeAux b l → isSafeChar c = true := by
  intro l
  induction l with
  | nil => intro b c h; simp [sanitizeAux] at h
  | cons x xs ih =>
    intro b c h
    by_cases hx : isSafeChar x
    · rw [sanitizeAux, if_pos hx] at h
      rcases List.mem_cons.mp h with h | h
      · exact h ▸ hx
      · exact ih false c h
    · rw [sanitizeAux, if_neg hx] at h
      cases b with
      | true =>
        rw [if_pos rfl] at h
        exact ih true c h
      | false =>
        rw [if_neg (by simp)] at h
        rcases List.mem_cons.mp h with h | h
        · rw [h]; decide
        · exact ih true c h

/-- Membership survives `dropWhile` backwards. -/
theorem mem_of_mem_dropWhile {p : Char → Bool} {c : Char} :
    ∀ {l : List Char}, c ∈ l.dropWhile p → c ∈ l := by
  intro l
  induction l with
  | nil => intro h; simp at h
  | cons x xs ih =>
    intro h
    rw [List.dropWhile_cons] at h
    by_cases hx : p x = true
    · rw [if_pos hx] at h
      exact List.mem_cons_of_mem x (ih h)
    · rw [if_neg hx] at h
      exact h

/-- Membership survives trimming backwards. -/
theorem mem_of_mem_trimUnderscores {c : Char} {l : List Char}
    (h : c ∈ trimUnderscores l) : c ∈ l := by
  unfold trimUnderscores at h
  rw [List.mem_reverse] at h
  have h₁ := mem_of_mem_dropWhile h
  rw [List.mem_reverse] at h₁
  exact mem_of_mem_dropWhile h₁

/-- A nonempty list has a nonempty 180-prefix. -/
theorem take180_ne_nil {l : List Char} (h : l ≠ []) : l.take 180 ≠ [] := by
  cases l with
  | nil => exact absurd rfl h
  | cons x xs => simp [List.take_cons]

/-- C9: the claim as frozen quantifies over every extension input, and an
extension outside the safe class defeats it: with the identity for both
platform stages (exact for the pure-ASCII name `"a"`, whose NFKD form and
extension-stripped basename are itself), the result for extension `"!"`
is `"a.!"`, which does not match `^[A-Za-z0-9._-]+$`. -/
theorem buildAsciiFallbackFilename_bad_extension :
    buildAsciiFallbackFilename id id ['a'] ['!'] = ['a', '.', '!'] ∧
      isSafeChar '!' = false := by
  constructor
  · rfl
  · decide

/-- C9 (amended): for every extension-stripping stage, every
normalization stage, every display name, and every extension whose
characters all lie in `[A-Za-z0-9._-]` (every extension the service
infers is sanitized to `[a-z0-9]`, a subset), `buildAsciiFallbackFilename`
returns a non-empty string of at most 180 characters, all of which lie in
`[A-Za-z0-9._-]`. -/
theorem buildAsciiFallbackFilename_safe
    (stripExt nfkd : List Char → List Char) (name ext : List Char)
    (hext : ∀ c ∈ ext, isSafeChar c = true) :
    buildAsciiFallbackFilename stripExt nfkd name ext ≠ [] ∧
      (buildAsciiFallbackFilename stripExt nfkd name ext).length ≤ 180 ∧
      ∀ c ∈ buildAsciiFallbackFilename stripExt nfkd name ext, isSafeChar c = true := by
  unfold buildAsciiFallbackFilename
  set normalizedBase := trimUnderscores (sanitizeRuns (nfkd (stripExt name))) with hnb
  set fileBase :=
    (if normalizedBase ≠ [] ∧ normalizedBase.any isAsciiAlnum then normalizedBase
     else ['f', 'i', 'l', 'e']) with hfb
  set safeExt := (if ext = [] then [] else '.' :: ext) with hse
  have hfb_ne : fileBase ≠ [] := by
    rw [hfb]
    by_cases hc : normalizedBase ≠ [] ∧ normalizedBase.any isAsciiAlnum
    · rw [if_pos hc]; exact hc.1
    · rw [if_neg hc]; simp
  have hfb_safe : ∀ c ∈ fileBase, isSafeChar c = true := by
    rw [hfb]
    by_cases hc : normalizedBase ≠ [] ∧ normalizedBase.any isAsciiAlnum
    · rw [if_pos hc]
      intro c hcmem
      exact sanitizeAux_safe _ false c (mem_of_mem_trimUnderscores (hnb ▸ hcmem))
    · rw [if_neg hc]
      intro c hcmem
      fin_cases hcmem <;> decide
  have hse_safe : ∀ c ∈ safeExt, isSafeChar c = true := by
    rw [hse]
    by_cases hc : ext = []
    · rw [if_pos hc]; intro c hcmem; simp at hcmem
    · rw [if_neg hc]
      intro c hcmem
      rcases List.mem_cons.mp hcmem with h | h
      · rw [h]; decide
      · exact hext c h
  refine ⟨?_, ?_, ?_⟩
  · exact take180_ne_nil fun h => hfb_ne (List.append_eq_nil.mp h).1
  · simp
  · intro c hcmem
    have hcmem' : c ∈ fileBase ++ safeExt := List.take_subset 180 _ hcmem
    rcases List.mem_append.mp hcmem' with h | h
    · exact hfb_safe c h
    · exact hse_safe c h

/-- Witness for `buildAsciiFallbackFilename_safe` at a concrete input. -/
theorem buildAsciiFallbackFilename_safe_witness :
    buildAsciiFallbackFilename id id ['r', 'é', 's', 'u'] ['j', 'p', 'g'] ≠ [] ∧
      (buildAsciiFallbackFilename id id ['r', 'é', 's', 'u'] ['j', 'p', 'g']).length ≤ 180 ∧
      ∀ c ∈ buildAsciiFallbackFilename id id ['r', 'é', 's', 'u'] ['j', 'p', 'g'],
        isSafeChar c = true :=
  buildAsciiFallbackFilename_safe id id ['r', 'é', 's', 'u'] ['j', 'p', 'g'] (by decide)

/-! ## Metadata store: soft delete (`services/database.ts` lines 114-128) -/

/-- The `SET status = 'DELETED', deleted_at = NOW()` clause. -/
def markDeleted (now : Nat) (r : MediaObject) : MediaObject :=
  { r with status := MediaStatus.DELETED, deletedAt := some now }

/-- The `WHERE id = $1 AND status != 'DELETED'` clause. -/
def isSoftDeletable (id : String) (r : MediaObject) : Bool :=
  r.id == id && !(r.status == MediaStatus.DELETED)

/-- `db.softDeleteMediaObject(id)`: updates every row matched by the
`WHERE` clause (`id` is the primary key, so at most one) and returns the
updated row, or `null` when no row matched (`rowCount === 0`). -/
def softDeleteMediaObject (state : List MediaObject) (id : String) (now : Nat) :
    Option MediaObject × List MediaObject :=
  ((state.find? (isSoftDeletable id)).map (markDeleted now),
   state.map fun r => if isSoftDeletable id r then markDeleted now r else r)

/-- After a soft delete, no row with that id remains soft-deletable. -/
theorem isSoftDeletable_after {state : List MediaObject} {id : String} {now : Nat} :
    ∀ x ∈ (softDeleteMediaObject state id now).2, ¬ isSoftDeletable id x = true := by
  intro x hx
  rcases List.mem_map.mp hx with ⟨r, _, hr⟩
  by_cases hp : isSoftDeletable id r = true
  · rw [if_pos hp] at hr
    rw [← hr]
    intro hcon
    rw [isSoftDeletable] at hcon
    have h2 : (!((markDeleted now r).status == MediaStatus.DELETED)) = false := rfl
    rw [h2, Bool.and_false] at hcon
    exact Bool.false_ne_true hcon
  · rw [if_neg hp] at hr
    rw [← hr]
    exact hp

/-- When no row satisfies the `WHERE` clause, the call is a no-op that
returns `null`. -/
theorem softDeleteMediaObject_noop {state : List MediaObject} {id : String} {now : Nat}
    (h : ∀ x ∈ state, ¬ isSoftDeletable id x = true) :
    softDeleteMediaObject state id now = (none, state) := by
  unfold softDeleteMediaObject
  rw [List.find?_eq_none.mpr h]
  have hmap : (state.map fun r => if isSoftDeletable id r then markDeleted now r else r)
      = state := by
    have heach : ∀ r ∈ state,
        (if isSoftDeletable id r then markDeleted now r else r) = (fun r => r) r :=
      fun r hr => by rw [if_neg (h r hr)]
    rw [List.map_congr_left heach, List.map_id']
  rw [hmap]
  rfl

/-- C4: the first soft-delete call on an existing `ACTIVE` record
transitions it to `DELETED` and returns the record; every subsequent call
for the same id — like any call for an id no record carries — returns
"not found" (`null`) and leaves the store unchanged, performing no second
transition. -/
theorem softDeleteMediaObject_claim :
    (∀ (state : List MediaObject) (id : String) (now : Nat) (r : MediaObject),
      state.find? (isSoftDeletable id) = some r →
      r.status = MediaStatus.ACTIVE ∧
      (softDeleteMediaObject state id now).1 = some (markDeleted now r) ∧
      markDeleted now r ∈ (softDeleteMediaObject state id now).2 ∧
      (markDeleted now r).status = MediaStatus.DELETED ∧
      (∀ now' : Nat,
        softDeleteMediaObject (softDeleteMediaObject state id now).2 id now' =
          (none, (softDeleteMediaObject state id now).2))) ∧
    (∀ (state : List MediaObject) (id : String) (now : Nat),
      (∀ r ∈ state, r.id ≠ id) →
      softDeleteMediaObject state id now = (none, state)) := by
  constructor
  · intro state id now r hfind
    have hpred : isSoftDeletable id r = true := List.find?_some hfind
    have hmem : r ∈ state := List.mem_of_find?_eq_some hfind
    refine ⟨?_, ?_, ?_, rfl, ?_⟩
    · cases hstatus : r.status with
      | ACTIVE => rfl
      | DELETED =>
        exfalso
        rw [isSoftDeletable, hstatus] at hpred
        have h2 : (!(MediaStatus.DELETED == MediaStatus.DELETED)) = false := rfl
        rw [h2, Bool.and_false] at hpred
        exact Bool.false_ne_true hpred
    · rw [softDeleteMediaObject, hfind]
      rfl
    · exact List.mem_map.mpr ⟨r, hmem, by rw [if_pos hpred]⟩
    · intro now'
      exact softDeleteMediaObject_noop isSoftDeletable_after
  · intro state id now h
    refine softDeleteMediaObject_noop fun x hx hp => ?_
    rw [isSoftDeletable] at hp
    have := (Bool.and_eq_true _ _).mp hp
    exact h x hx (by simpa using this.1)

/-- A concrete `ACTIVE` row used by the witnesses. -/
def sampleActive : MediaObject :=
  { id := "m1", ownerId := "u1", originalName := "a.png",
    storedKey := "uploads/u1/m1.png", mimeType := "image/png",
    sizeBytes := 5, width := some 2, height := some 2,
    status := MediaStatus.ACTIVE, uploadedAt := 3, deletedAt := none }

/-- Witness for `softDeleteMediaObject_claim` at a concrete store. -/
theorem softDeleteMediaObject_claim_witness :
    (sampleActive.status = MediaStatus.ACTIVE ∧
     (softDeleteMediaObject [sampleActive] "m1" 9).1 = some (markDeleted 9 sampleActive) ∧
     markDeleted 9 sampleActive ∈ (softDeleteMediaObject [sampleActive] "m1" 9).2 ∧
     (markDeleted 9 sampleActive).status = MediaStatus.DELETED ∧
     softDeleteMediaObject (softDeleteMediaObject [sampleActive] "m1" 9).2 "m1" 11 =
       (none, (softDeleteMediaObject [sampleActive] "m1" 9).2)) ∧
    softDeleteMediaObject [sampleActive] "zzz" 9 = (none, [sampleActive]) := by
  have h := softDeleteMediaObject_claim.1 [sampleActive] "m1" 9 sampleActive (by rfl)
  exact ⟨⟨h.1, h.2.1, h.2.2.1, h.2.2.2.1, h.2.2.2.2 11⟩,
    softDeleteMediaObject_claim.2 [sampleActive] "zzz" 9 (by decide)⟩

/-! ## URL Synthesizer (`routes/media.ts` lines 141-158, `services/storage.ts`) -/

/-- `signedGetUrl` is issued by the AWS SDK (`getSignedUrl`), an external
collaborator; only its interface is modelled: an opaque non-empty URL
determined by the key. -/
def generatePresignedDownloadUrl (key : String) : String :=
  "https://signed/" ++ key

/-- `replace(/\/$/, '')`: drop one trailing slash. -/
def stripTrailingSlash (s : String) : String :=
  if s.endsWith "/" then s.dropRight 1 else s

/-- `buildPublicUrl(key)` from `services/storage.ts`, CDN branch (the
endpoint and AWS fallbacks have the same `prefix ++ "/" ++ suffix` shape). -/
def buildPublicUrl (cdnBase key : String) : String :=
  stripTrailingSlash cdnBase ++ "/" ++ key

/-- `buildDownloadUrl(key, ...)` from `routes/media.ts`: public URL when
`config.publicRead && config.cdnBaseUrl` (JS truthiness: an unset or
empty CDN base falls through), otherwise a presigned download URL. -/
def buildDownloadUrl (publicRead : Bool) (cdnBaseUrl : Option String) (key : String) : String :=
  match cdnBaseUrl with
  | some base => if publicRead ∧ base ≠ "" then buildPublicUrl base key
                 else generatePresignedDownloadUrl key
  | none => generatePresignedDownloadUrl key

/-- The per-item URL of the listing endpoint (`routes/media.ts` lines
320-326): a URL exactly for `ACTIVE` rows, `null` otherwise. -/
def listItemUrl (publicRead : Bool) (cdnBaseUrl : Option String) (item : MediaObject) :
    Option String :=
  if item.status = MediaStatus.ACTIVE
  then some (buildDownloadUrl publicRead cdnBaseUrl item.storedKey)
  else none

/-- Response of `GET /media/:id` (`routes/media.ts` lines 335-371). -/
inductive GetByIdResponse where
  | notFound
  | forbidden
  | ok (media : MediaObject) (url : Option String) (presignedUrl : Option String)
deriving DecidableEq, Repr

/-- The `GET /media/:id` handler: 404 when the row is absent, 403 when the
caller is neither owner nor `ADMIN`; otherwise the row with `url` (only
for `ACTIVE`) and, when `presign=true`, a presigned download URL —
computed without consulting `media.status`. -/
def getMediaByIdHandler (publicRead : Bool) (cdnBaseUrl : Option String)
    (media? : Option MediaObject) (userId role : String) (presignFlag : Bool) :
    GetByIdResponse :=
  match media? with
  | none => GetByIdResponse.notFound
  | some media =>
    if media.ownerId ≠ userId ∧ role ≠ "ADMIN" then GetByIdResponse.forbidden
    else
      let presignedUrl :=
        if presignFlag then some (generatePresignedDownloadUrl media.storedKey) else none
      GetByIdResponse.ok media
        (if media.status = MediaStatus.ACTIVE
         then some (buildDownloadUrl publicRead cdnBaseUrl media.storedKey)
         else none)
        presignedUrl

/-- A concrete soft-deleted row. -/
def sampleDeleted : MediaObject :=
  { id := "m2", ownerId := "u1", originalName := "b.png",
    storedKey := "uploads/u1/m2.png", mimeType := "image/png",
    sizeBytes := 7, width := some 2, height := some 2,
    status := MediaStatus.DELETED, uploadedAt := 4, deletedAt := some 8 }

/-- C1: the listing URL and the plain single-get `url` field are indeed
`null` for a `DELETED` row and non-empty for an `ACTIVE` row, but
`GET /media/:id?presign=true` on a `DELETED` row returns a non-empty
presigned download URL — the presign branch never consults the status, so
the claimed invariant fails on the single-get endpoint. -/
theorem deletedRecord_presign_yields_url :
    listItemUrl false none sampleDeleted = none ∧
    listItemUrl false none sampleActive = some "https://signed/uploads/u1/m1.png" ∧
    getMediaByIdHandler false none (some sampleDeleted) "u1" "USER" true =
      GetByIdResponse.ok sampleDeleted none (some "https://signed/uploads/u1/m2.png") ∧
    ("https://signed/uploads/u1/m2.png" : String) ≠ "" := by
  refine ⟨rfl, rfl, rfl, ?_⟩
  decide

/-! ## Upload Orchestrator (`routes/media.ts` lines 160-258) -/

/-- A multipart file part (`Express.Multer.File`): the fields the handler
reads. -/
structure UploadFile where
  originalname : String
  mimetype : String
  size : Nat
deriving DecidableEq, Repr

/-- Per-file external outcomes: the generated uuid and the results of the
four awaited collaborator calls (sharp probe, object-store write, metadata
insert, event publish), each succeeding or rejecting with a message. -/
structure FileEnv where
  genId : String
  now : Nat
  probe : Except String (Option Nat × Option Nat)
  store : Except String Unit
  dbCreate : Except String Unit
  publish : Except String Unit
deriving Repr

/-- Static context of the upload handler. -/
structure UploadCtx where
  allowedMimeTypes : List String
  production : Bool
  publicRead : Bool
  cdnBaseUrl : Option String
  userId : String
  /-- `normalizeUploadFilename` (latin1 repair, platform `Buffer`). -/
  normalizeName : String → String
  /-- `extensionFrom(mimeType, fileName)` (uses `path.extname`). -/
  extensionOf : String → String → String

/-- `assertMimeType`'s error message (`routes/media.ts` lines 73-80). -/
def unsupportedMimeMessage (allowed : List String) : String :=
  "Unsupported mime type. Allowed: " ++ String.intercalate ", " allowed

/-- The probe-failure message (`routes/media.ts` lines 189-197). -/
def invalidImageMessage (production : Bool) (details : String) : String :=
  if production then "Invalid image file" else "Invalid image file: " ++ details

/-- One item of a successful upload: the created row spread together with
its download URL. -/
structure UploadedItem where
  record : MediaObject
  url : String
deriving DecidableEq, Repr

/-- The body of the per-file `try` (`routes/media.ts` lines 186-236): MIME
allow-list check, image probe, key derivation, object-store write,
metadata insert, event publish, URL synthesis.  Any throw — including one
from `publishMediaEvent` — is caught by the per-file `catch` (lines
237-242), which records `(file.originalname, error.message)`. -/
def processFile (ctx : UploadCtx) (f : UploadFile) (env : FileEnv) :
    Except (String × String) UploadedItem :=
  if f.mimetype ∉ ctx.allowedMimeTypes then
    Except.error (f.originalname, unsupportedMimeMessage ctx.allowedMimeTypes)
  else
    match env.probe with
    | Except.error details =>
      Except.error (f.originalname, invalidImageMessage ctx.production details)
    | Except.ok (w, h) =>
      let originalName := ctx.normalizeName f.originalname
      let extension := ctx.extensionOf f.mimetype originalName
      let key := buildObjectKey ctx.userId env.genId extension
      match env.store with
      | Except.error msg => Except.error (f.originalname, msg)
      | Except.ok _ =>
        match env.dbCreate with
        | Except.error msg => Except.error (f.originalname, msg)
        | Except.ok _ =>
          let record : MediaObject :=
            { id := env.genId, ownerId := ctx.userId, originalName := originalName,
              storedKey := key, mimeType := f.mimetype, sizeBytes := f.size,
              width := w, height := h, status := MediaStatus.ACTIVE,
              uploadedAt := env.now, deletedAt := none }
          match env.publish with
          | Except.error msg => Except.error (f.originalname, msg)
          | Except.ok _ =>
            Except.ok { record := record,
                        url := buildDownloadUrl ctx.publicRead ctx.cdnBaseUrl key }

/-- The `for (const file of files)` loop (`routes/media.ts` lines
185-243): each file lands in `items` or in `failed`, in input order. -/
def uploadLoop (ctx : UploadCtx) :
    List (UploadFile × FileEnv) → List UploadedItem × List (String × String)
  | [] => ([], [])
  | (f, env) :: rest =>
    let tail := uploadLoop ctx rest
    match processFile ctx f env with
    | Except.ok item => (item :: tail.1, tail.2)
    | Except.error e => (tail.1, e :: tail.2)

/-- Response shapes of `POST /media/upload` (lines 178-180, 245-256). -/
inductive UploadResponse where
  | badRequest (message : String) (failed : List (String × String))
  | createdSingle (item : UploadedItem)
  | createdBatch (items : List UploadedItem) (failed : List (String × String))
deriving DecidableEq, Repr

/-- HTTP status of an upload response. -/
def UploadResponse.status : UploadResponse → Nat
  | UploadResponse.badRequest _ _ => 400
  | UploadResponse.createdSingle _ => 201
  | UploadResponse.createdBatch _ _ => 201

/-- `failed[0]?.message || 'Upload failed'` (JS truthiness: an empty
message also falls back). -/
def firstFailureMessage (failed : List (String × String)) : String :=
  match failed.head? with
  | some (_, msg) => if msg = "" then "Upload failed" else msg
  | none => "Upload failed"

/-- The `POST /media/upload` handler after multipart collection: empty
batch → 400; all files failed → 400 with the first failure's message;
exactly one success and no failure → 201 single object; otherwise 201
`{items, failed}`. -/
def uploadHandler (ctx : UploadCtx) (files : List (UploadFile × FileEnv)) : UploadResponse :=
  if files.isEmpty then UploadResponse.badRequest "file field is required" []
  else
    let r := uploadLoop ctx files
    if r.1 = [] then UploadResponse.badRequest (firstFailureMessage r.2) r.2
    else
      match r.1, r.2 with
      | [item], [] => UploadResponse.createdSingle item
      | items, failed => UploadResponse.createdBatch items failed

/-- A MIME type outside the allow-list short-circuits the per-file
pipeline with the `assertMimeType` message. -/
theorem processFile_mime_reject {ctx : UploadCtx} {f : UploadFile} {env : FileEnv}
    (h : f.mimetype ∉ ctx.allowedMimeTypes) :
    processFile ctx f env =
      Except.error (f.originalname, unsupportedMimeMessage ctx.allowedMimeTypes) := by
  rw [processFile, if_pos h]

/-- A concrete upload context for witnesses: default allow-list, non-production,
signed URLs; the two platform stages are instantiated with the identity and a
constant `png` extension. -/
def sampleCtx : UploadCtx :=
  { allowedMimeTypes := ["image/jpeg", "image/png", "image/webp", "image/gif", "image/avif"],
    production := false, publicRead := false, cdnBaseUrl := none,
    userId := "u1", normalizeName := fun n => n, extensionOf := fun _ _ => "png" }

/-- A concrete PNG part. -/
def filePng : UploadFile := { originalname := "a.png", mimetype := "image/png", size := 5 }

/-- A concrete JPEG part. -/
def fileJpg : UploadFile := { originalname := "b.jpg", mimetype := "image/jpeg", size := 6 }

/-- A concrete part with a disallowed MIME type. -/
def fileTxt : UploadFile := { originalname := "notes.txt", mimetype := "text/plain", size := 9 }

/-- Outcomes where every collaborator call succeeds. -/
def envOk (genId : String) : FileEnv :=
  { genId := genId, now := 3, probe := Except.ok (some 2, some 2),
    store := Except.ok (), dbCreate := Except.ok (), publish := Except.ok () }

/-- Outcomes where everything up to and including the metadata insert
succeeds and only the event publish rejects. -/
def envPublishFails : FileEnv :=
  { genId := "id1", now := 3, probe := Except.ok (some 2, some 2),
    store := Except.ok (), dbCreate := Except.ok (),
    publish := Except.error "publish failed" }

/-- C2: a publish failure after a fully successful store write and
metadata insert IS caught by the per-file catch: the file is reported in
`failed` with the publish error's message, and for a single-file batch
the HTTP outcome becomes 400 instead of 201 — the failure is surfaced to
the client, contradicting the claimed fire-and-forget contract. -/
theorem publishFailure_marks_file_failed :
    uploadHandler sampleCtx [(filePng, envPublishFails)] =
      UploadResponse.badRequest "publish failed" [("a.png", "publish failed")] ∧
    (uploadHandler sampleCtx [(filePng, envPublishFails)]).status = 400 := by
  constructor <;> rfl

/-- C3: the loop processes files independently (`uploadLoop` distributes
over batch concatenation, so one file's failure never aborts the others),
and in a 3-file batch whose second file alone has a disallowed MIME type
the response is a 201 with exactly the two succeeded items and exactly
one failure entry carrying file #2's name and the unsupported-mime
message. -/
theorem uploadBatch_independent_and_partial_failure :
    (∀ (ctx : UploadCtx) (xs ys : List (UploadFile × FileEnv)),
      uploadLoop ctx (xs ++ ys) =
        ((uploadLoop ctx xs).1 ++ (uploadLoop ctx ys).1,
         (uploadLoop ctx xs).2 ++ (uploadLoop ctx ys).2)) ∧
    (∀ (ctx : UploadCtx) (f₁ f₂ f₃ : UploadFile) (e₁ e₂ e₃ : FileEnv)
       (i₁ i₃ : UploadedItem),
      processFile ctx f₁ e₁ = Except.ok i₁ →
      processFile ctx f₃ e₃ = Except.ok i₃ →
      f₂.mimetype ∉ ctx.allowedMimeTypes →
      uploadHandler ctx [(f₁, e₁), (f₂, e₂), (f₃, e₃)] =
        UploadResponse.createdBatch [i₁, i₃]
          [(f₂.originalname, unsupportedMimeMessage ctx.allowedMimeTypes)] ∧
      (uploadHandler ctx [(f₁, e₁), (f₂, e₂), (f₃, e₃)]).status = 201) := by
  constructor
  · intro ctx xs ys
    induction xs with
    | nil => rfl
    | cons p rest ih =>
      obtain ⟨f, env⟩ := p
      rw [List.cons_append, uploadLoop, uploadLoop, ih]
      cases processFile ctx f env <;> rfl
  · intro ctx f₁ f₂ f₃ e₁ e₂ e₃ i₁ i₃ h₁ h₃ h₂
    have hloop : uploadLoop ctx [(f₁, e₁), (f₂, e₂), (f₃, e₃)] =
        ([i₁, i₃], [(f₂.originalname, unsupportedMimeMessage ctx.allowedMimeTypes)]) := by
      rw [uploadLoop, uploadLoop, uploadLoop, uploadLoop, h₁, h₃, processFile_mime_reject h₂]
    constructor
    · rw [uploadHandler]
      rw [if_neg (by simp)]
      rw [hloop]
      rfl
    · rw [uploadHandler]
      rw [if_neg (by simp)]
      rw [hloop]
      rfl

/-- The row `processFile` creates for `filePng` under `envOk "id1"`. -/
def expectedPngRecord : MediaObject :=
  { id := "id1", ownerId := "u1", originalName := "a.png",
    storedKey := "uploads/u1/id1.png", mimeType := "image/png", sizeBytes := 5,
    width := some 2, height := some 2, status := MediaStatus.ACTIVE,
    uploadedAt := 3, deletedAt := none }

/-- The item `processFile` produces for `filePng` under `envOk "id1"`. -/
def expectedPngItem : UploadedItem :=
  { record := expectedPngRecord, url := "https://signed/uploads/u1/id1.png" }

/-- The row `processFile` creates for `fileJpg` under `envOk "id3"`. -/
def expectedJpgRecord : MediaObject :=
  { id := "id3", ownerId := "u1", originalName := "b.jpg",
    storedKey := "uploads/u1/id3.png", mimeType := "image/jpeg", sizeBytes := 6,
    width := some 2, height := some 2, status := MediaStatus.ACTIVE,
    uploadedAt := 3, deletedAt := none }

/-- The item `processFile` produces for `fileJpg` under `envOk "id3"`. -/
def expectedJpgItem : UploadedItem :=
  { record := expectedJpgRecord, url := "https://signed/uploads/u1/id3.png" }

/-- Witness for `uploadBatch_independent_and_partial_failure` at a
concrete 3-file batch. -/
theorem uploadBatch_independent_and_partial_failure_witness :
    uploadHandler sampleCtx [(filePng, envOk "id1"), (fileTxt, envOk "id2"), (fileJpg, envOk "id3")] =
      UploadResponse.createdBatch [expectedPngItem, expectedJpgItem]
        [("notes.txt", unsupportedMimeMessage sampleCtx.allowedMimeTypes)] ∧
    (uploadHandler sampleCtx
      [(filePng, envOk "id1"), (fileTxt, envOk "id2"), (fileJpg, envOk "id3")]).status = 201 :=
  uploadBatch_independent_and_partial_failure.2 sampleCtx filePng fileTxt fileJpg
    (envOk "id1") (envOk "id2") (envOk "id3") expectedPngItem expectedJpgItem
    (by rfl) (by rfl) (by decide)

/-! ## Listing pagination (`services/database.ts` lines 61-104) -/

/-- The assembled `WHERE` conditions of `listMediaObjects`: `status =
'ACTIVE'` unless `includeDeleted`, `owner_id = $n` when an owner is given,
`uploaded_at < $n` when a cursor is given. -/
def matchesListFilter (ownerId : Option String) (cursor : Option Nat)
    (includeDeleted : Bool) (r : MediaObject) : Bool :=
  (includeDeleted || (r.status == MediaStatus.ACTIVE)) &&
  (match ownerId with | some o => r.ownerId == o | none => true) &&
  (match cursor with | some c => decide (r.uploadedAt < c) | none => true)

/-- Insertion step of `ORDER BY uploaded_at DESC`. -/
def insertByUploadedAtDesc (r : MediaObject) : List MediaObject → List MediaObject
  | [] => [r]
  | x :: xs =>
    if r.uploadedAt ≤ x.uploadedAt then x :: insertByUploadedAtDesc r xs
    else r :: x :: xs

/-- `ORDER BY uploaded_at DESC` as an insertion sort. -/
def sortByUploadedAtDesc (l : List MediaObject) : List MediaObject :=
  l.foldr insertByUploadedAtDesc []

/-- `db.listMediaObjects`: fetch `limit + 1` rows ordered by
`uploaded_at` descending; when more than `limit` rows arrive, return the
first `limit` and use `rows[limit].uploadedAt` (the extra row, zero
indexed) as `nextCursor`. -/
def listMediaObjects (state : List MediaObject) (ownerId : Option String)
    (limit : Nat) (cursor : Option Nat) (includeDeleted : Bool) :
    List MediaObject × Option Nat :=
  let rows :=
    (sortByUploadedAtDesc
      (state.filter (matchesListFilter ownerId cursor includeDeleted))).take (limit + 1)
  match (rows.drop limit).head? with
  | some extra => (rows.take limit, some extra.uploadedAt)
  | none => (rows, none)

/-- Repeatedly following `nextCursor`, as the spec's pagination property
prescribes; `fuel` bounds the number of pages. -/
def paginate (state : List MediaObject) (ownerId : Option String)
    (limit : Nat) (includeDeleted : Bool) : Nat → Option Nat → List MediaObject
  | 0, _ => []
  | Nat.succ fuel, cursor =>
    let r := listMediaObjects state ownerId limit cursor includeDeleted
    match r.2 with
    | none => r.1
    | some c => r.1 ++ paginate state ownerId limit includeDeleted fuel (some c)

/-- Three `ACTIVE` rows with distinct timestamps 3, 2, 1. -/
def pageRec3 : MediaObject :=
  { id := "p3", ownerId := "u1", originalName := "p3.png",
    storedKey := "uploads/u1/p3.png", mimeType := "image/png", sizeBytes := 1,
    width := none, height := none, status := MediaStatus.ACTIVE,
    uploadedAt := 3, deletedAt := none }

/-- Second row, timestamp 2 — the one the pagination skips. -/
def pageRec2 : MediaObject :=
  { id := "p2", ownerId := "u1", originalName := "p2.png",
    storedKey := "uploads/u1/p2.png", mimeType := "image/png", sizeBytes := 1,
    width := none, height := none, status := MediaStatus.ACTIVE,
    uploadedAt := 2, deletedAt := none }

/-- Third row, timestamp 1. -/
def pageRec1 : MediaObject :=
  { id := "p1", ownerId := "u1", originalName := "p1.png",
    storedKey := "uploads/u1/p1.png", mimeType := "image/png", sizeBytes := 1,
    width := none, height := none, status := MediaStatus.ACTIVE,
    uploadedAt := 1, deletedAt := none }

/-- C5: the mechanics the claim describes are exactly what the code does —
`limit + 1` rows fetched, the extra row's timestamp becomes the cursor —
but the boundary row itself is then unreachable: the next page filters
`uploaded_at < cursor`, which excludes the extra row, so following
`nextCursor` over rows 3, 2, 1 with `limit = 1` yields pages `[3]` then
`[1]`: the timestamp-2 row is skipped and the pages do not partition the
result set. -/
theorem pagination_skips_cursor_row :
    listMediaObjects [pageRec3, pageRec2, pageRec1] none 1 none false =
      ([pageRec3], some 2) ∧
    listMediaObjects [pageRec3, pageRec2, pageRec1] none 1 (some 2) false =
      ([pageRec1], none) ∧
    paginate [pageRec3, pageRec2, pageRec1] none 1 false 4 none = [pageRec3, pageRec1] ∧
    pageRec2 ∈ [pageRec3, pageRec2, pageRec1] ∧
    pageRec2 ∉ [pageRec3, pageRec1] := by
  refine ⟨rfl, rfl, rfl, by decide, by decide⟩

/-! ## Deletion Orchestrator (`routes/media.ts` lines 373-404) -/

/-- The externally observable effects of `DELETE /media/:id`. -/
inductive DeleteEvent where
  | softDelete
  | publish
  | purge
deriving DecidableEq, Repr

/-- The `DELETE /media/:id` handler as an effect trace: 404 when the row
is absent, 403 when the caller is neither owner nor admin; otherwise the
soft-delete write is awaited first (a throw aborts the request), a
deletion event is published only when the soft delete returned a row (a
publish throw aborts before any purge), and the `purge=true` object
delete runs last.  The second component is the HTTP status, `none` when
the request aborts with a thrown error. -/
def deleteHandlerTrace (target : Option MediaObject) (ownerOk : Bool)
    (sd : Except String (Option MediaObject)) (pub : Except String Unit)
    (purgeFlag : Bool) : List DeleteEvent × Option Nat :=
  match target with
  | none => ([], some 404)
  | some _ =>
    if ownerOk = false then ([], some 403)
    else
      match sd with
      | Except.error _ => ([DeleteEvent.softDelete], none)
      | Except.ok deleted =>
        match deleted with
        | some _ =>
          match pub with
          | Except.error _ => ([DeleteEvent.softDelete, DeleteEvent.publish], none)
          | Except.ok _ =>
            (if purgeFlag then
              [DeleteEvent.softDelete, DeleteEvent.publish, DeleteEvent.purge]
             else [DeleteEvent.softDelete, DeleteEvent.publish], some 200)
        | none =>
          (if purgeFlag then [DeleteEvent.softDelete, DeleteEvent.purge]
           else [DeleteEvent.softDelete], some 200)

/-- C7: in every execution of the deletion handler, any published
deletion event and any purge come strictly after the soft-delete write
(the trace begins with it), and a purge occurs only in executions whose
soft-delete call succeeded. -/
theorem delete_softDelete_precedes_publish_and_purge :
    ∀ (target : Option MediaObject) (ownerOk : Bool)
      (sd : Except String (Option MediaObject)) (pub : Except String Unit)
      (purgeFlag : Bool),
      (DeleteEvent.publish ∈ (deleteHandlerTrace target ownerOk sd pub purgeFlag).1 →
        (deleteHandlerTrace target ownerOk sd pub purgeFlag).1.head? =
          some DeleteEvent.softDelete) ∧
      (DeleteEvent.purge ∈ (deleteHandlerTrace target ownerOk sd pub purgeFlag).1 →
        (deleteHandlerTrace target ownerOk sd pub purgeFlag).1.head? =
          some DeleteEvent.softDelete ∧ ∃ d, sd = Except.ok d) := by
  intro target ownerOk sd pub purgeFlag
  cases target with
  | none => simp [deleteHandlerTrace]
  | some m =>
    cases ownerOk with
    | false => simp [deleteHandlerTrace]
    | true =>
      rcases sd with msg | deleted
      · simp [deleteHandlerTrace]
      · rcases deleted with _ | d
        · cases purgeFlag <;> simp [deleteHandlerTrace]
        · rcases pub with pmsg | _
          · simp [deleteHandlerTrace]
          · cases purgeFlag <;> simp [deleteHandlerTrace]

/-- Witness for `delete_softDelete_precedes_publish_and_purge` on the
full path: row found, owner ok, soft delete transitions, publish ok,
purge requested. -/
theorem delete_softDelete_precedes_witness :
    (deleteHandlerTrace (some sampleActive) true
        (Except.ok (some sampleActive)) (Except.ok ()) true).1.head? =
      some DeleteEvent.softDelete ∧
    ∃ d, (Except.ok (some sampleActive) : Except String (Option MediaObject)) =
      Except.ok d :=
  (delete_softDelete_precedes_publish_and_purge (some sampleActive) true
    (Except.ok (some sampleActive)) (Except.ok ()) true).2 (by decide)

/-! ## Rate limiter (`services/rateLimiter.ts`, `src/unnamed/part_003`) -/

/-- The Redis key `rate:{identity}`: absent, or a counter with an
optional absolute expiry instant. -/
abbrev RateKey := Option (Nat × Option Nat)

/-- `RateLimiter.consume`: `INCR` (an expired key counts as absent and is
recreated at 1 with no TTL), read `TTL` (negative exactly when the key
has no expiry), arm `EXPIRE windowSeconds` when `current === 1 || ttl <
0`, and admit iff `current ≤ maxRequests` (`current > max` throws
`RATE_LIMITED` — after the increment). -/
def consume (W M now : Nat) (st : RateKey) : Bool × RateKey :=
  let live : RateKey :=
    match st with
    | some (c, some e) => if e ≤ now then none else some (c, some e)
    | other => other
  match live with
  | none => (decide (1 ≤ M), some (1, some (now + W)))
  | some (c, e) =>
    let current := c + 1
    let e' := if current = 1 ∨ e = none then some (now + W) else e
    (decide (current ≤ M), some (current, e'))

/-- A sequence of `consume` calls at the given instants, returning each
call's admission verdict and the final key state. -/
def runConsumes (W M : Nat) : List Nat → RateKey → List Bool × RateKey
  | [], st => ([], st)
  | t :: ts, st =>
    let step := consume W M t st
    let rest := runConsumes W M ts step.2
    (step.1 :: rest.1, rest.2)

/-- `rateLimitMiddleware` (`src/unnamed/part_003`): consume, then either
run the guarded handler or answer 429 without touching anything else.
The abstract `σ` stands for every other subsystem. -/
def rateLimitGate {σ : Type} (W M now : Nat) (st : RateKey) (subsystem : σ)
    (handler : σ → σ) : Option Nat × RateKey × σ :=
  let r := consume W M now st
  if r.1 then (none, r.2, handler subsystem) else (some 429, r.2, subsystem)

/-- C6: the limiter is a fixed-window counter, not a sliding-window one:
with `W = 10`, `M = 2`, requests at instants 0, 9, 10, 11 are all
admitted, although the three requests at 9, 10 and 11 fall inside one
10-second sliding window — the claim's `(M+1)`-th-request-rejected
guarantee fails for sliding windows (the counter armed at 0 expires at
10 and restarts). -/
theorem rateLimiter_not_sliding_window :
    (runConsumes 10 2 [0, 9, 10, 11] none).1 = [true, true, true, true] ∧
      11 < 9 + 10 := by
  constructor
  · rfl
  · decide

/-- Helper: while the window armed at expiry instant `x` is live, each
`consume` just increments the counter, keeps the expiry, and admits iff
the incremented count is within `M`. -/
theorem runConsumes_within_window (W M x : Nat) :
    ∀ (ts : List Nat) (k : Nat), 1 ≤ k → (∀ t ∈ ts, t < x) →
      runConsumes W M ts (some (k, some x)) =
        ((List.range ts.length).map (fun j => decide (k + j + 1 ≤ M)),
         some (k + ts.length, some x)) := by
  intro ts
  induction ts with
  | nil => intro k _ _; simp [runConsumes]
  | cons t ts ih =>
    intro k hk h
    have ht : t < x := h t (List.mem_cons_self _ _)
    have hcons : consume W M t (some (k, some x)) =
        (decide (k + 1 ≤ M), some (k + 1, some x)) := by
      rw [consume]
      simp only [if_neg (Nat.not_le.mpr ht)]
      have : (k + 1 = 1 ∨ (some x : Option Nat) = none) = False := by
        simp; omega
      simp only [this, if_false]
    rw [runConsumes, hcons]
    rw [ih (k + 1) (by omega) (fun t' ht' => h t' (List.mem_cons_of_mem t ht'))]
    rw [Prod.mk.injEq]
    constructor
    · rw [List.length_cons, List.range_succ_eq_map, List.map_cons, List.map_map]
      refine congrArg₂ List.cons rfl (List.map_congr_left fun j _ => ?_)
      simp only [Function.comp_apply]
      refine congrArg (fun n => decide (n ≤ M)) ?_
      omega
    · rw [List.length_cons]
      exact congrArg (fun n => (some (n, some x) : RateKey)) (by omega)

/-- C6 (amended): the limiter enforces a FIXED window armed on the
window's first increment: starting with no counter, the first request at
`t₁` arms expiry `t₁ + W`; for a burst of requests all before `t₁ + W`
the `i`-th is admitted iff `i ≤ M` (so the `(M+1)`-th is rejected); a
request at or after the expiry restarts the counter at 1 with a fresh
window; a mid-window request never re-arms the expiry; and a rejected
request answers 429 without running the guarded handler, leaving every
other subsystem untouched. -/
theorem rateLimiter_fixed_window :
    (∀ (W M t₁ : Nat) (ts : List Nat), (∀ t ∈ ts, t < t₁ + W) →
      runConsumes W M (t₁ :: ts) none =
        ((List.range (ts.length + 1)).map (fun j => decide (j + 1 ≤ M)),
         some (ts.length + 1, some (t₁ + W)))) ∧
    (∀ (W M c e t : Nat), e ≤ t →
      consume W M t (some (c, some e)) = (decide (1 ≤ M), some (1, some (t + W)))) ∧
    (∀ (W M c e t : Nat), t < e → 1 ≤ c →
      consume W M t (some (c, some e)) = (decide (c + 1 ≤ M), some (c + 1, some e))) ∧
    (∀ (W M now : Nat) (st : RateKey) (sub : Nat) (handler : Nat → Nat),
      (consume W M now st).1 = false →
      rateLimitGate W M now st sub handler = (some 429, (consume W M now st).2, sub)) := by
  refine ⟨?_, ?_, ?_, ?_⟩
  · intro W M t₁ ts h
    rw [runConsumes]
    have hfirst : consume W M t₁ none = (decide (1 ≤ M), some (1, some (t₁ + W))) := rfl
    rw [hfirst]
    rw [runConsumes_within_window W M (t₁ + W) ts 1 (by omega) h]
    rw [Prod.mk.injEq]
    constructor
    · rw [List.range_succ_eq_map, List.map_cons, List.map_map]
      refine congrArg₂ List.cons rfl (List.map_congr_left fun j _ => ?_)
      simp only [Function.comp_apply]
      refine congrArg (fun n => decide (n ≤ M)) ?_
      omega
    · exact congrArg (fun n => (some (n, some (t₁ + W)) : RateKey)) (by omega)
  · intro W M c e t he
    rw [consume]
    simp only [if_pos he]
  · intro W M c e t ht hc
    rw [consume]
    simp only [if_neg (Nat.not_le.mpr ht)]
    have : (c + 1 = 1 ∨ (some e : Option Nat) = none) = False := by
      simp; omega
    simp only [this, if_false]
  · intro W M now st sub handler h
    rw [rateLimitGate]
    simp only [h]
    rfl

/-- Witness for `rateLimiter_fixed_window` with `W = 10`, `M = 2`:
a burst at 0, 1, 2, 3 admits the first two and rejects the third and
fourth; expiry reset at 15; no re-arm mid-window; a rejected call leaves
the guarded subsystem (here the number 7) untouched. -/
theorem rateLimiter_fixed_window_witness :
    runConsumes 10 2 [0, 1, 2, 3] none =
      ((List.range 4).map (fun j => decide (j + 1 ≤ 2)), some (4, some 10)) ∧
    consume 10 2 15 (some (4, some 10)) = (decide (1 ≤ 2), some (1, some 25)) ∧
    consume 10 2 3 (some (1, some 9)) = (decide (2 ≤ 2), some (2, some 9)) ∧
    rateLimitGate 10 2 5 (some (2, some 9)) 7 (fun n => n + 1) =
      (some 429, (consume 10 2 5 (some (2, some 9))).2, 7) :=
  ⟨rateLimiter_fixed_window.1 10 2 0 [1, 2, 3] (by decide),
   rateLimiter_fixed_window.2.1 10 2 4 10 15 (by decide),
   rateLimiter_fixed_window.2.2.1 10 2 1 9 3 (by decide) (by decide),
   rateLimiter_fixed_window.2.2.2 10 2 5 (some (2, some 9)) 7 (fun n => n + 1) (by decide)⟩

/-! ## Route registrations (`routes/media.ts` lines 160-164, 260-263,
298-300, 335-337, 373-376) -/

/-- Middleware kinds appearing in the route registrations. -/
inductive Mw where
  | rateLimit
  | multerFields
  | handler
deriving DecidableEq, Repr

/-- A registered route: method, path pattern, middleware chain in
registration order. -/
structure Route where
  method : String
  path : String
  middlewares : List Mw
deriving DecidableEq, Repr

/-- The five registrations of `routes/media.ts`, in source order. -/
def mediaRoutes : List Route :=
  [ { method := "POST", path := "/media/upload",
      middlewares := [Mw.rateLimit, Mw.multerFields, Mw.handler] },
    { method := "POST", path := "/media/presign",
      middlewares := [Mw.rateLimit, Mw.handler] },
    { method := "GET", path := "/media", middlewares := [Mw.handler] },
    { method := "GET", path := "/media/:id", middlewares := [Mw.handler] },
    { method := "DELETE", path := "/media/:id",
      middlewares := [Mw.rateLimit, Mw.handler] } ]

/-- A route consults the rate limiter iff `rateLimitMiddleware` is in its
chain. -/
def consultsRateLimiter (r : Route) : Bool :=
  r.middlewares.contains Mw.rateLimit

/-- HTTP status of the `GET /media` handler: 401 from `ensureUser`, 400
on invalid query, 500 when a collaborator call throws, 200 otherwise. -/
def listMediaStatus (hasUser queryValid upstreamOk : Bool) : Nat :=
  if !hasUser then 401 else if !queryValid then 400 else if !upstreamOk then 500 else 200

/-- HTTP status of a `GET /media/:id` response. -/
def GetByIdResponse.httpStatus : GetByIdResponse → Nat
  | GetByIdResponse.notFound => 404
  | GetByIdResponse.forbidden => 403
  | GetByIdResponse.ok _ _ _ => 200

/-- HTTP status of the `GET /media/:id` handler, including the
`ensureUser` 401 and the error-handler 500 for a throwing collaborator. -/
def getMediaByIdStatus (hasUser upstreamOk publicRead : Bool) (cdn : Option String)
    (media? : Option MediaObject) (userId role : String) (presign : Bool) : Nat :=
  if !hasUser then 401
  else if !upstreamOk then 500
  else (getMediaByIdHandler publicRead cdn media? userId role presign).httpStatus

/-- C10: exactly `POST /media/upload`, `POST /media/presign` and
`DELETE /media/:id` carry `rateLimitMiddleware`; the two GET routes do
not, and no execution of either GET handler produces a 429 status. -/
theorem rateLimiter_route_coverage :
    ((mediaRoutes.filter consultsRateLimiter).map (fun r => (r.method, r.path)) =
      [("POST", "/media/upload"), ("POST", "/media/presign"), ("DELETE", "/media/:id")]) ∧
    ((mediaRoutes.filter (fun r => !(consultsRateLimiter r))).map
        (fun r => (r.method, r.path)) =
      [("GET", "/media"), ("GET", "/media/:id")]) ∧
    (∀ hasUser queryValid upstreamOk : Bool,
      listMediaStatus hasUser queryValid upstreamOk ≠ 429) ∧
    (∀ (hasUser upstreamOk publicRead : Bool) (cdn : Option String)
       (media? : Option MediaObject) (userId role : String) (presign : Bool),
      getMediaByIdStatus hasUser upstreamOk publicRead cdn media? userId role presign ≠ 429) := by
  refine ⟨by decide, by decide, by decide, ?_⟩
  intro hasUser upstreamOk publicRead cdn media? userId role presign
  rw [getMediaByIdStatus]
  cases hasUser with
  | false => simp
  | true =>
    cases upstreamOk with
    | false => simp
    | true =>
      cases hresp : getMediaByIdHandler publicRead cdn media? userId role presign <;>
        simp [GetByIdResponse.httpStatus]

/-- Witness for `rateLimiter_route_coverage` at concrete handler inputs. -/
theorem rateLimiter_route_coverage_witness :
    listMediaStatus true true true ≠ 429 ∧
    getMediaByIdStatus true true false none (some sampleActive) "u1" "USER" false ≠ 429 :=
  ⟨rateLimiter_route_coverage.2.2.1 true true true,
   rateLimiter_route_coverage.2.2.2 true true false none (some sampleActive) "u1" "USER" false⟩

end MediaService

